import Mathlib

/-!
Shallow embedding of the recommendation core of `streamlit_app.py`
(hybrid tourist-destination recommender).

Conventions of the embedding:
* A pandas DataFrame of catalog rows becomes a `List Wisata`; the `ratings`
  table becomes a `List Rating`.
* The TF-IDF + cosine-similarity matrix and the trained SVD prediction map are
  floating-point library computations; they enter the embedding as opaque-value
  parameters (`sim : Nat → Nat → ℚ`, `Option (Nat → Nat → ℚ)`), ranged over
  universally in the theorems.  Positions into the similarity matrix are catalog
  positions, exactly as in the source.
* Python `sorted(key=..., reverse=True)` is a stable descending sort; it is
  embedded as `List.insertionSort` with the relation `simGE` (Mathlib's
  insertion sort inserts an element in front of the first element it relates
  to, so ties keep their original relative order, matching CPython).
* `type`/`description` nulls are filled upstream with a placeholder string
  (`fillna` in `load_and_train_models`); rows are therefore embedded with plain
  `String` fields.
-/

namespace ProyekWisata

/-- One row of the `wisata` table (after the `fillna` preprocessing of
`load_and_train_models`, which replaces null `type`/`description` with a
placeholder string). -/
structure Wisata where
  no : Nat
  nama : String
  vote_average : ℚ
  vote_count : Nat
  type_ : String
  htm_weekday : Int
  htm_weekend : Int
  description : String
deriving DecidableEq

/-- One row of the `ratings` table; primary key is `(user_id, wisata_id)`. -/
structure Rating where
  user_id : Nat
  wisata_id : Nat
  rating : ℚ
  comment : Option String
deriving DecidableEq

/-- The persistent store: the `wisata` and `ratings` tables. -/
structure Db where
  wisata : List Wisata
  ratings : List Rating

/-- The relation used for Python's `sorted(..., key=lambda x: x[1],
reverse=True)` over `(position, score)` pairs: `a` may come before `b` iff
`a`'s score is at least `b`'s.  Inserting before the first related element
keeps ties in original order (stability). -/
def simGE (a b : Nat × ℚ) : Prop := b.2 ≤ a.2

instance : DecidableRel simGE := fun a b => inferInstanceAs (Decidable (b.2 ≤ a.2))

instance : IsTotal (Nat × ℚ) simGE := ⟨fun a b => le_total b.2 a.2⟩

instance : IsTrans (Nat × ℚ) simGE :=
  ⟨fun _ _ _ h1 h2 => le_trans h2 h1⟩

/-- Python's `str.lower()`, embedded characterwise. -/
def str_lower (s : String) : String := ⟨s.data.map Char.toLower⟩

/-- `df[df['nama'].str.lower() == nama_wisata.lower()].index[0]`: position of
the first row whose predicate holds, `none` when the boolean filter is empty
(the `IndexError` branch of the source). -/
def first_match_idx (p : α → Bool) : List α → Option Nat
  | [] => none
  | x :: t => if p x then some 0 else (first_match_idx p t).map (fun i => i + 1)

/-- The `(position, similarity)` pairs of the seed row's similarity-matrix row,
stably sorted by descending similarity and sliced `[1:6]`, as in
`dapatkan_rekomendasi_content_based`. -/
def simSlice (df : List Wisata) (sim : Nat → Nat → ℚ) (idx : Nat) : List (Nat × ℚ) :=
  let sim_scores := (List.range df.length).map (fun j => (j, sim idx j))
  ((sim_scores.insertionSort simGE).drop 1).take 5

/-- `dapatkan_rekomendasi_content_based(nama_wisata, df, cosine_sim_matrix)`:
resolve the seed name case-insensitively, sort its similarity row descending
(stable), slice `[1:6]`, and select those catalog positions. -/
def dapatkan_rekomendasi_content_based (nama_wisata : String) (df : List Wisata)
    (sim : Nat → Nat → ℚ) : List Wisata :=
  match first_match_idx (fun w => str_lower w.nama == str_lower nama_wisata) df with
  | none => []
  | some idx => ((simSlice df sim idx).map (fun q => q.1)).filterMap (fun i => df[i]?)

/-- Ids of items already rated by `user_id`
(`SELECT wisata_id FROM ratings WHERE user_id = ?`). -/
def rated_ids (user_id : Nat) (ratings : List Rating) : List Nat :=
  (ratings.filter (fun r => r.user_id == user_id)).map (fun r => r.wisata_id)

/-- `set(df_wisata['no']) - rated_wisata_ids`.  CPython iterates the resulting
set of small integers in an unspecified order; the embedding fixes catalog
order. -/
def unrated_ids (user_id : Nat) (df : List Wisata) (ratings : List Rating) : List Nat :=
  (df.map (fun w => w.no)).filter (fun i => !((rated_ids user_id ratings).contains i))

/-- `top_n_ids`: predict every unrated item, stable-sort the predictions by
descending estimate, keep the first five ids. -/
def top_n_ids (user_id : Nat) (df : List Wisata) (ratings : List Rating)
    (p : Nat → Nat → ℚ) : List Nat :=
  let predictions := (unrated_ids user_id df ratings).map (fun i => (i, p user_id i))
  (((predictions.insertionSort simGE)).take 5).map (fun q => q.1)

/-- `dapatkan_rekomendasi_collaborative_filtering(user_id, df_wisata, model_cf)`:
empty when no model is trained; otherwise the final
`df_wisata[df_wisata['no'].isin(top_n_ids)]` — note that this last selection is
in catalog order, not prediction order. -/
def dapatkan_rekomendasi_collaborative_filtering (user_id : Nat) (df : List Wisata)
    (ratings : List Rating) (model_cf : Option (Nat → Nat → ℚ)) : List Wisata :=
  match model_cf with
  | none => []
  | some p => df.filter (fun w => (top_n_ids user_id df ratings p).contains w.no)

/-- Worker of `drop_duplicates(subset=['no'])`: keep a row iff its `no` was not
seen before. -/
def dedup_no_go (seen : List Nat) : List Wisata → List Wisata
  | [] => []
  | w :: t => if seen.contains w.no then dedup_no_go seen t
              else w :: dedup_no_go (w.no :: seen) t

/-- `DataFrame.drop_duplicates(subset=['no'])` (keep='first'). -/
def drop_duplicates_no (l : List Wisata) : List Wisata := dedup_no_go [] l

/-- `dapatkan_rekomendasi_hybrid`: concatenate collaborative results first,
then content-based, drop duplicate ids keeping the first occurrence, take the
head of five rows. -/
def dapatkan_rekomendasi_hybrid (nama_wisata : String) (user_id : Nat) (df : List Wisata)
    (sim : Nat → Nat → ℚ) (ratings : List Rating)
    (model_cf : Option (Nat → Nat → ℚ)) : List Wisata :=
  let rekomendasi_cb := dapatkan_rekomendasi_content_based nama_wisata df sim
  let rekomendasi_cf := dapatkan_rekomendasi_collaborative_filtering user_id df ratings model_cf
  (drop_duplicates_no (rekomendasi_cf ++ rekomendasi_cb)).take 5

/-- The "Cari Rekomendasi" button handler: compute the hybrid list, then — only
when a category filter set was supplied — post-filter the already-capped list
by `rekomendasi['type'].isin(selected_types)`. -/
def cari_rekomendasi_handler (nama_wisata : String) (user_id : Nat)
    (selected_types : List String) (df : List Wisata) (sim : Nat → Nat → ℚ)
    (ratings : List Rating) (model_cf : Option (Nat → Nat → ℚ)) : List Wisata :=
  let rekomendasi := dapatkan_rekomendasi_hybrid nama_wisata user_id df sim ratings model_cf
  if selected_types.isEmpty then rekomendasi
  else rekomendasi.filter (fun w => selected_types.contains w.type_)

/-- `submit_rating`: `INSERT OR REPLACE INTO ratings` keyed by
`(user_id, wisata_id)` — SQLite deletes the conflicting row and inserts the new
one. -/
def submit_rating (user_id wisata_id : Nat) (rating : ℚ) (comment : Option String)
    (rs : List Rating) : List Rating :=
  rs.filter (fun r => !(r.user_id == user_id && r.wisata_id == wisata_id)) ++
    [⟨user_id, wisata_id, rating, comment⟩]

/-- The admin "add item" form fields consumed by `tambah_wisata`. -/
structure WisataForm where
  nama : String
  vote_average : ℚ
  type_ : String
  htm_weekday : Int
  htm_weekend : Int
  description : String

/-- `tambah_wisata`: `new_no = (SELECT MAX(no) FROM wisata or 0) + 1`, insert
the row with `vote_count = 0`. -/
def tambah_wisata (data : WisataForm) (catalog : List Wisata) : List Wisata :=
  let max_no := (catalog.map (fun w => w.no)).foldr max 0
  let new_no := max_no + 1
  catalog ++ [⟨new_no, data.nama, data.vote_average, 0, data.type_,
               data.htm_weekday, data.htm_weekend, data.description⟩]

/-- `hapus_wisata`: delete the ratings referencing the item, then the item
itself. -/
def hapus_wisata (no : Nat) (db : Db) : Db :=
  ⟨db.wisata.filter (fun w => !(w.no == no)),
   db.ratings.filter (fun r => !(r.wisata_id == no))⟩

/-- Modelled from the spec: the Latent Factor Trainer's prediction state
(`surprise.SVD` after `fit`, which is library code absent from the repository
source) — fixed-dimension user/item factors, per-user/per-item biases, one
global mean, and the sets of users/items seen at training time. -/
structure LatentModel where
  global_mean : ℚ
  known_users : List Nat
  known_items : List Nat
  user_bias : Nat → ℚ
  item_bias : Nat → ℚ
  user_factors : Nat → List ℚ
  item_factors : Nat → List ℚ

/-- Dot product of two factor vectors. -/
def dotQ (a b : List ℚ) : ℚ := (List.zipWith (fun x y => x * y) a b).sum

/-- Clamp a raw estimate to the `Reader(rating_scale=(1, 10))` range. -/
def clamp_rating (x : ℚ) : ℚ := max 1 (min 10 x)

/-- Modelled from the spec: `predict(user_id, item_id)` of the trained SVD
model — `global_mean + user_bias + item_bias + dot(user_factors, item_factors)`
clamped to `[1, 10]`, with an unknown user or item contributing zero bias and
zero factors (cold-start fallback); total, so it never raises. -/
def svd_predict (m : LatentModel) (u i : Nat) : ℚ :=
  let bu := if m.known_users.contains u then m.user_bias u else 0
  let bi := if m.known_items.contains i then m.item_bias i else 0
  let pu := if m.known_users.contains u then m.user_factors u else []
  let qi := if m.known_items.contains i then m.item_factors i else []
  clamp_rating (m.global_mean + bu + bi + dotQ pu qi)

/-- The triple returned by `load_and_train_models` in the successful case:
the processed catalog, the cosine-similarity matrix and the (possibly absent)
collaborative model. -/
structure Models where
  df_wisata : List Wisata
  sim : Nat → Nat → ℚ
  model_cf : Option (Nat → Nat → ℚ)

/-- `load_and_train_models`: with an empty `wisata` table it reports failure
(the `(None, None, None)` return, embedded as `none`); otherwise it fits the
TF-IDF/cosine model and, only when ratings exist, the SVD model.  The two
numeric trainings are library computations abstracted as the parameters
`tfidf_sim` and `svd_train`. -/
def load_and_train_models (tfidf_sim : List Wisata → Nat → Nat → ℚ)
    (svd_train : List Rating → Nat → Nat → ℚ) (db : Db) : Option Models :=
  if db.wisata.isEmpty then none
  else some ⟨db.wisata, tfidf_sim db.wisata,
             if db.ratings.isEmpty then none else some (svd_train db.ratings)⟩

/-- The `@st.cache_resource` slot around `load_and_train_models`: `none` means
no cached return value; `some v` caches the returned triple `v` (including a
failure triple).  A read returns the cached value or recomputes and stores. -/
def cached_load (tfidf_sim : List Wisata → Nat → Nat → ℚ)
    (svd_train : List Rating → Nat → Nat → ℚ)
    (c : Option (Option Models)) (db : Db) : Option Models × Option (Option Models) :=
  match c with
  | some v => (v, some v)
  | none =>
    let v := load_and_train_models tfidf_sim svd_train db
    (v, some v)

/-- `st.cache_resource.clear()`: drop the cached snapshot unconditionally. -/
def cache_clear (_c : Option (Option Models)) : Option (Option Models) := none

/-- The serving guard of the main page (`if df_wisata_app is not None:`): with
an absent model triple no recommendation is served (the unavailability branch);
otherwise the hybrid recommendation runs against the snapshot. -/
def serve_recommendations (models : Option Models) (nama_wisata : String)
    (user_id : Nat) (ratings : List Rating) : Option (List Wisata) :=
  match models with
  | none => none
  | some m =>
    some (dapatkan_rekomendasi_hybrid nama_wisata user_id m.df_wisata m.sim ratings m.model_cf)

/-- The composite key of a rating row. -/
def ratingKey (r : Rating) : Nat × Nat := (r.user_id, r.wisata_id)

/-- The dummy ratings inserted by `init_db` into an empty `ratings` table. -/
def initial_ratings : List Rating :=
  [⟨1, 1, 9, some "Sangat indah!"⟩, ⟨1, 60, 8, some "Cukup bagus"⟩,
   ⟨1, 108, 95/10, some "Fantastis!"⟩, ⟨2, 60, 9, none⟩,
   ⟨2, 119, 85/10, some "Pemandangan bagus"⟩, ⟨2, 76, 9, some "Sangat direkomendasikan"⟩]

/-- The two write paths that mutate the `ratings` table: a rating submission
and the delete performed by `hapus_wisata` (the manual cascade). -/
inductive RatingEvent : List Rating → List Rating → Prop
  | submit (u i : Nat) (x : ℚ) (c : Option String) (rs : List Rating) :
      RatingEvent rs (submit_rating u i x c rs)
  | cascade_delete (no : Nat) (rs : List Rating) :
      RatingEvent rs (rs.filter (fun r => !(r.wisata_id == no)))

/-- Rating states reachable from the initialized database through the
application's write paths. -/
inductive ReachableRatings : List Rating → Prop
  | init : ReachableRatings initial_ratings
  | step {rs rs' : List Rating} : ReachableRatings rs → RatingEvent rs rs' →
      ReachableRatings rs'

/-! ### Helper lemmas about the stable descending sort -/

/-- The order produced by the stable descending sort on `(position, score)`
pairs whose positions are strictly increasing: strictly larger score first,
ties in position order. -/
def scoreOrder (a b : Nat × ℚ) : Prop := b.2 < a.2 ∨ (a.2 = b.2 ∧ a.1 < b.1)

lemma scoreOrder_snd_le {a b : Nat × ℚ} (h : scoreOrder a b) : b.2 ≤ a.2 := by
  rcases h with h | ⟨h, _⟩
  · exact le_of_lt h
  · exact le_of_eq h.symm

lemma pairwise_scoreOrder_orderedInsert (x : Nat × ℚ) (s : List (Nat × ℚ))
    (hs : s.Pairwise scoreOrder) (hx : ∀ y ∈ s, x.1 < y.1) :
    (List.orderedInsert simGE x s).Pairwise scoreOrder := by
  induction s with
  | nil => simp [List.orderedInsert]
  | cons b t ih =>
    rw [List.orderedInsert]
    rcases List.pairwise_cons.mp hs with ⟨hbt, ht⟩
    by_cases h : simGE x b
    · rw [if_pos h]
      refine List.pairwise_cons.mpr ⟨?_, hs⟩
      intro z hz
      have hzle : z.2 ≤ x.2 := by
        rcases List.mem_cons.mp hz with rfl | hz'
        · exact h
        · exact le_trans (scoreOrder_snd_le (hbt z hz')) h
      rcases lt_or_eq_of_le hzle with hlt | heq
      · exact Or.inl hlt
      · exact Or.inr ⟨heq.symm, hx z hz⟩
    · rw [if_neg h]
      refine List.pairwise_cons.mpr ⟨?_, ih ht (fun y hy => hx y (List.mem_cons_of_mem b hy))⟩
      intro z hz
      rcases (List.mem_orderedInsert simGE).mp hz with rfl | hz'
      · exact Or.inl (lt_of_not_le h)
      · exact hbt z hz'

lemma pairwise_scoreOrder_insertionSort (l : List (Nat × ℚ))
    (hl : l.Pairwise (fun a b => a.1 < b.1)) :
    (l.insertionSort simGE).Pairwise scoreOrder := by
  induction l with
  | nil => simp
  | cons x t ih =>
    rcases List.pairwise_cons.mp hl with ⟨hxt, ht⟩
    rw [List.insertionSort]
    refine pairwise_scoreOrder_orderedInsert x _ (ih ht) ?_
    intro y hy
    exact hxt y ((List.perm_insertionSort simGE t).mem_iff.mp hy)

/-- The enumerated similarity row. -/
def simRow (n : Nat) (f : Nat → ℚ) : List (Nat × ℚ) :=
  (List.range n).map (fun j => (j, f j))

lemma simRow_fst (n : Nat) (f : Nat → ℚ) :
    (simRow n f).map (fun q => q.1) = List.range n := by
  rw [simRow, List.map_map]
  exact List.map_id (List.range n)

lemma mem_simRow {n : Nat} {f : Nat → ℚ} {q : Nat × ℚ} (h : q ∈ simRow n f) :
    q.1 < n ∧ q = (q.1, f q.1) := by
  rcases List.mem_map.mp h with ⟨j, hj, rfl⟩
  exact ⟨List.mem_range.mp hj, rfl⟩

lemma pairwise_fst_simRow (n : Nat) (f : Nat → ℚ) :
    (simRow n f).Pairwise (fun a b => a.1 < b.1) := by
  refine List.Pairwise.map _ ?_ (List.pairwise_lt_range n)
  intro a b hab
  exact hab

lemma pairwise_scoreOrder_sorted_simRow (n : Nat) (f : Nat → ℚ) :
    ((simRow n f).insertionSort simGE).Pairwise scoreOrder :=
  pairwise_scoreOrder_insertionSort _ (pairwise_fst_simRow n f)

/-- With the seed's self-similarity maximal in its row and strictly above the
similarity to every earlier position, the stable descending sort of the row
starts with the seed's own entry. -/
lemma sorted_simRow_head (n idx : Nat) (f : Nat → ℚ) (hidx : idx < n)
    (hmax : ∀ j, j < n → f j ≤ f idx) (hstrict : ∀ j, j < idx → f j < f idx) :
    ∃ t, (simRow n f).insertionSort simGE = (idx, f idx) :: t := by
  have hperm := List.perm_insertionSort simGE (simRow n f)
  have hpair := pairwise_scoreOrder_sorted_simRow n f
  have hmem : (idx, f idx) ∈ (simRow n f).insertionSort simGE := by
    refine hperm.mem_iff.mpr ?_
    exact List.mem_map.mpr ⟨idx, List.mem_range.mpr hidx, rfl⟩
  cases hs : (simRow n f).insertionSort simGE with
  | nil => rw [hs] at hmem; cases hmem
  | cons h t =>
    rw [hs] at hmem hpair
    have hh : h ∈ simRow n f := hperm.subset (hs ▸ List.mem_cons_self h t)
    rcases mem_simRow hh with ⟨hhlt, hhe⟩
    rcases List.mem_cons.mp hmem with heq | hmem'
    · exact ⟨t, by rw [← heq]⟩
    · exfalso
      have hrel : scoreOrder h (idx, f idx) :=
        (List.pairwise_cons.mp hpair).1 (idx, f idx) hmem'
      rcases hrel with hlt | ⟨heq2, hlt2⟩
      · have : h.2 ≤ f idx := by rw [hhe]; exact hmax h.1 hhlt
        exact absurd hlt (not_lt.mpr this)
      · have : h.2 < f idx := by rw [hhe]; exact hstrict h.1 hlt2
        rw [heq2] at this
        exact lt_irrefl _ this

/-! ### Helper lemmas about positional row selection (`df.iloc`) -/

lemma mem_filterMap_getElem {α : Type} {l : List α} {idxs : List Nat} {w : α}
    (h : w ∈ idxs.filterMap (fun i => l[i]?)) : w ∈ l := by
  rcases List.mem_filterMap.mp h with ⟨i, _, hget⟩
  have hi : i < l.length := by
    by_contra hn
    rw [List.getElem?_eq_none (Nat.le_of_not_lt hn)] at hget
    cases hget
  rw [List.getElem?_eq_getElem hi] at hget
  cases hget
  exact List.getElem_mem hi

lemma length_filterMap_getElem {α : Type} {l : List α} {idxs : List Nat}
    (h : ∀ i ∈ idxs, i < l.length) :
    (idxs.filterMap (fun i => l[i]?)).length = idxs.length := by
  induction idxs with
  | nil => rfl
  | cons i t ih =>
    rw [List.filterMap_cons, List.getElem?_eq_getElem (h i (List.mem_cons_self i t))]
    simp only [List.length_cons]
    rw [ih (fun j hj => h j (List.mem_cons_of_mem i hj))]

/-! ### Facts about `simSlice` and the content-based recommendations -/

lemma simSlice_eq_slice_sorted (df : List Wisata) (sim : Nat → Nat → ℚ) (idx : Nat) :
    simSlice df sim idx =
      (((simRow df.length (sim idx)).insertionSort simGE).drop 1).take 5 := rfl

lemma simSlice_sublist_sorted (df : List Wisata) (sim : Nat → Nat → ℚ) (idx : Nat) :
    (simSlice df sim idx).Sublist ((simRow df.length (sim idx)).insertionSort simGE) := by
  rw [simSlice_eq_slice_sorted]
  exact (List.take_sublist _ _).trans (List.drop_sublist _ _)

lemma simSlice_fst_nodup (df : List Wisata) (sim : Nat → Nat → ℚ) (idx : Nat) :
    ((simSlice df sim idx).map (fun q => q.1)).Nodup := by
  have hperm : (((simRow df.length (sim idx)).insertionSort simGE).map (fun q => q.1)).Perm
      (List.range df.length) := by
    rw [← simRow_fst df.length (sim idx)]
    exact (List.perm_insertionSort simGE _).map _
  have hnd : (((simRow df.length (sim idx)).insertionSort simGE).map (fun q => q.1)).Nodup :=
    (List.Perm.nodup_iff hperm).mpr (List.nodup_range df.length)
  exact List.Nodup.sublist ((simSlice_sublist_sorted df sim idx).map _) hnd

lemma simSlice_fst_lt (df : List Wisata) (sim : Nat → Nat → ℚ) (idx : Nat) :
    ∀ i ∈ (simSlice df sim idx).map (fun q => q.1), i < df.length := by
  intro i hi
  rcases List.mem_map.mp hi with ⟨q, hq, rfl⟩
  have hq2 : q ∈ (simRow df.length (sim idx)).insertionSort simGE :=
    (simSlice_sublist_sorted df sim idx).subset hq
  have hq3 : q ∈ simRow df.length (sim idx) :=
    (List.perm_insertionSort simGE _).subset hq2
  exact (mem_simRow hq3).1

lemma simSlice_pairwise (df : List Wisata) (sim : Nat → Nat → ℚ) (idx : Nat) :
    (simSlice df sim idx).Pairwise scoreOrder :=
  (pairwise_scoreOrder_sorted_simRow df.length (sim idx)).sublist
    (simSlice_sublist_sorted df sim idx)

lemma content_based_subset (nama_wisata : String) (df : List Wisata)
    (sim : Nat → Nat → ℚ) :
    ∀ w ∈ dapatkan_rekomendasi_content_based nama_wisata df sim, w ∈ df := by
  intro w hw
  rw [dapatkan_rekomendasi_content_based] at hw
  cases hfind : first_match_idx (fun w => str_lower w.nama == str_lower nama_wisata) df with
  | none => rw [hfind] at hw; cases hw
  | some idx =>
    rw [hfind] at hw
    exact mem_filterMap_getElem hw

lemma content_based_length_found (nama_wisata : String) (df : List Wisata)
    (sim : Nat → Nat → ℚ) (idx : Nat)
    (hfind : first_match_idx (fun w => str_lower w.nama == str_lower nama_wisata) df = some idx) :
    (dapatkan_rekomendasi_content_based nama_wisata df sim).length =
      min 5 (df.length - 1) := by
  rw [dapatkan_rekomendasi_content_based, hfind]
  rw [length_filterMap_getElem (simSlice_fst_lt df sim idx), List.length_map]
  rw [simSlice_eq_slice_sorted, List.length_take, List.length_drop]
  rw [(List.perm_insertionSort simGE (simRow df.length (sim idx))).length_eq]
  rw [simRow, List.length_map, List.length_range]

lemma content_based_length_le (nama_wisata : String) (df : List Wisata)
    (sim : Nat → Nat → ℚ) :
    (dapatkan_rekomendasi_content_based nama_wisata df sim).length ≤ 5 := by
  rw [dapatkan_rekomendasi_content_based]
  cases hfind : first_match_idx (fun w => str_lower w.nama == str_lower nama_wisata) df with
  | none => simp
  | some idx =>
    calc (((simSlice df sim idx).map (fun q => q.1)).filterMap (fun i => df[i]?)).length
        = ((simSlice df sim idx).map (fun q => q.1)).length :=
          length_filterMap_getElem (simSlice_fst_lt df sim idx)
      _ ≤ 5 := by
          rw [List.length_map, simSlice_eq_slice_sorted, List.length_take]
          exact min_le_left 5 _

/-- Rows selected at pairwise-distinct positions of a catalog with no duplicate
ids again have no duplicate ids. -/
lemma filterMap_getElem_ids_nodup (df : List Wisata) (idxs : List Nat)
    (hnd : idxs.Nodup) (hlt : ∀ i ∈ idxs, i < df.length)
    (hids : (df.map Wisata.no).Nodup) :
    ((idxs.filterMap (fun i => df[i]?)).map Wisata.no).Nodup := by
  induction idxs with
  | nil => simp
  | cons i t ih =>
    have hi : i < df.length := hlt i (List.mem_cons_self i t)
    rw [List.filterMap_cons, List.getElem?_eq_getElem hi]
    rw [List.map_cons]
    refine List.nodup_cons.mpr ⟨?_, ih (List.nodup_cons.mp hnd).2
      (fun j hj => hlt j (List.mem_cons_of_mem i hj))⟩
    intro hmem
    rcases List.mem_map.mp hmem with ⟨w, hw, hwno⟩
    rcases List.mem_filterMap.mp hw with ⟨j, hj, hget⟩
    have hjlt : j < df.length := hlt j (List.mem_cons_of_mem i hj)
    rw [List.getElem?_eq_getElem hjlt] at hget
    cases hget
    have hij : i ≠ j := fun h => (List.nodup_cons.mp hnd).1 (h ▸ hj)
    have hjlen : j < (df.map Wisata.no).length := by rw [List.length_map]; exact hjlt
    have hilen : i < (df.map Wisata.no).length := by rw [List.length_map]; exact hi
    have : (df.map Wisata.no)[j] = (df.map Wisata.no)[i] := by
      rw [List.getElem_map, List.getElem_map]
      exact hwno
    have := (List.Nodup.getElem_inj_iff hids).mp this
    exact hij (by omega)

lemma content_based_ids_nodup (nama_wisata : String) (df : List Wisata)
    (sim : Nat → Nat → ℚ) (hids : (df.map Wisata.no).Nodup) :
    ((dapatkan_rekomendasi_content_based nama_wisata df sim).map Wisata.no).Nodup := by
  rw [dapatkan_rekomendasi_content_based]
  cases hfind : first_match_idx (fun w => str_lower w.nama == str_lower nama_wisata) df with
  | none => simp
  | some idx =>
    exact filterMap_getElem_ids_nodup df _ (simSlice_fst_nodup df sim idx)
      (simSlice_fst_lt df sim idx) hids

/-! ### Facts about `drop_duplicates(subset=['no'])` -/

lemma dedup_no_go_not_mem_seen (seen : List Nat) (l : List Wisata) :
    ∀ x ∈ dedup_no_go seen l, ¬ x.no ∈ seen := by
  induction l generalizing seen with
  | nil => intro x hx; cases hx
  | cons w t ih =>
    intro x hx
    rw [dedup_no_go] at hx
    by_cases h : seen.contains w.no
    · rw [if_pos h] at hx
      exact ih seen x hx
    · rw [if_neg h] at hx
      rcases List.mem_cons.mp hx with rfl | hx'
      · exact fun hc => h (List.elem_iff.mpr hc)
      · intro hc
        exact ih (w.no :: seen) x hx' (List.mem_cons_of_mem _ hc)

lemma dedup_no_go_ids_nodup (seen : List Nat) (l : List Wisata) :
    ((dedup_no_go seen l).map Wisata.no).Nodup := by
  induction l generalizing seen with
  | nil => simp [dedup_no_go]
  | cons w t ih =>
    rw [dedup_no_go]
    by_cases h : seen.contains w.no
    · rw [if_pos h]; exact ih seen
    · rw [if_neg h, List.map_cons]
      refine List.nodup_cons.mpr ⟨?_, ih (w.no :: seen)⟩
      intro hmem
      rcases List.mem_map.mp hmem with ⟨x, hx, hxno⟩
      exact dedup_no_go_not_mem_seen _ _ x hx (hxno ▸ List.mem_cons_self w.no seen)

lemma dedup_no_go_subset (seen : List Nat) (l : List Wisata) :
    ∀ x ∈ dedup_no_go seen l, x ∈ l := by
  induction l generalizing seen with
  | nil => intro x hx; cases hx
  | cons w t ih =>
    intro x hx
    rw [dedup_no_go] at hx
    by_cases h : seen.contains w.no
    · rw [if_pos h] at hx
      exact List.mem_cons_of_mem w (ih seen x hx)
    · rw [if_neg h] at hx
      rcases List.mem_cons.mp hx with rfl | hx'
      · exact List.mem_cons_self x t
      · exact List.mem_cons_of_mem w (ih (w.no :: seen) _ hx')

lemma dedup_no_go_eq_self (seen : List Nat) (l : List Wisata)
    (hids : (l.map Wisata.no).Nodup) (hdis : ∀ w ∈ l, ¬ w.no ∈ seen) :
    dedup_no_go seen l = l := by
  induction l generalizing seen with
  | nil => rfl
  | cons w t ih =>
    rw [dedup_no_go]
    have h : ¬ seen.contains w.no = true := by
      intro hc
      exact hdis w (List.mem_cons_self w t) (List.elem_iff.mp hc)
    rw [if_neg h]
    congr 1
    refine ih (w.no :: seen) (List.nodup_cons.mp (List.map_cons Wisata.no w t ▸ hids)).2 ?_
    intro x hx hmem
    rcases List.mem_cons.mp hmem with heq | hmem'
    · exact (List.nodup_cons.mp (List.map_cons Wisata.no w t ▸ hids)).1
        (heq ▸ List.mem_map_of_mem Wisata.no hx)
    · exact hdis x (List.mem_cons_of_mem w hx) hmem'

/-- A row surviving deduplication whose id already occurs in the left part of
the concatenation is itself a row of the left part: the first occurrence wins. -/
lemma dedup_no_go_left_priority (seen : List Nat) (l1 l2 : List Wisata) :
    ∀ x ∈ dedup_no_go seen (l1 ++ l2), x.no ∈ l1.map Wisata.no → x ∈ l1 := by
  induction l1 generalizing seen with
  | nil => intro x _ hno; cases hno
  | cons w t ih =>
    intro x hx hno
    rw [List.cons_append, dedup_no_go] at hx
    by_cases h : seen.contains w.no
    · rw [if_pos h] at hx
      rcases List.mem_map.mp hno with ⟨y, hy, hyno⟩
      rcases List.mem_cons.mp hy with rfl | hy'
      · exfalso
        exact dedup_no_go_not_mem_seen _ _ x hx (hyno ▸ List.elem_iff.mp h)
      · exact List.mem_cons_of_mem w (ih seen x hx (hyno ▸ List.mem_map_of_mem Wisata.no hy'))
    · rw [if_neg h] at hx
      rcases List.mem_cons.mp hx with rfl | hx'
      · exact List.mem_cons_self x t
      · rcases List.mem_map.mp hno with ⟨y, hy, hyno⟩
        rcases List.mem_cons.mp hy with rfl | hy'
        · exfalso
          exact dedup_no_go_not_mem_seen _ _ x hx'
            (hyno ▸ List.mem_cons_self y.no seen)
        · exact List.mem_cons_of_mem w
            (ih (w.no :: seen) x hx' (hyno ▸ List.mem_map_of_mem Wisata.no hy'))

lemma first_match_idx_lt {α : Type} {p : α → Bool} :
    ∀ {l : List α} {i : Nat}, first_match_idx p l = some i → i < l.length := by
  intro l
  induction l with
  | nil => intro i h; cases h
  | cons x t ih =>
    intro i h
    rw [first_match_idx] at h
    by_cases hp : p x
    · rw [if_pos hp] at h
      cases h
      exact Nat.succ_pos _
    · rw [if_neg hp] at h
      rcases Option.map_eq_some'.mp h with ⟨j, hj, rfl⟩
      exact Nat.succ_lt_succ (ih hj)

/-! ### Claim C1: properties of the content-based neighbors -/

/-- Shared concrete catalog: two rows with identical content text, as an admin
can create; a TF-IDF/cosine model then yields similarity `1` everywhere. -/
def mkW (no : Nat) (nama type_ : String) : Wisata :=
  ⟨no, nama, 0, 0, type_, 0, 0, "deskripsi"⟩

def c1_df : List Wisata := [mkW 1 "alpha" "Alam", mkW 2 "beta" "Alam"]

def c1_sim : Nat → Nat → ℚ := fun _ _ => 1

/-- C1, counterexample: with two identical-content rows (constant similarity
matrix, diagonal maximal), seeding on the later row returns the seed itself:
the `[1:6]` slice drops the earlier tied row, not the seed.  So "the result
never contains the seed item" is false as stated. -/
theorem spec_C1_counterexample :
    first_match_idx (fun w => str_lower w.nama == str_lower "Beta") c1_df = some 1 ∧
    c1_df[1]? = some (mkW 2 "beta" "Alam") ∧
    mkW 2 "beta" "Alam" ∈ dapatkan_rekomendasi_content_based "Beta" c1_df c1_sim := by
  refine ⟨by decide, by decide, ?_⟩
  decide

/-- C1, amended: provided the seed row's self-similarity is maximal in its row
and strictly above the similarity to every earlier catalog position (in
particular whenever the row has a unique maximum at the seed), the
content-based result never contains the seed, has exactly `min 5 (n-1)`
entries, contains only catalog rows, and orders the slice by descending
similarity with ties broken by catalog position. -/
theorem spec_C1_amended (nama_wisata : String) (df : List Wisata)
    (sim : Nat → Nat → ℚ) (idx : Nat)
    (hfind : first_match_idx (fun w => str_lower w.nama == str_lower nama_wisata) df = some idx)
    (hids : (df.map Wisata.no).Nodup)
    (hmax : ∀ j, j < df.length → sim idx j ≤ sim idx idx)
    (hstrict : ∀ j, j < idx → sim idx j < sim idx idx) :
    ∀ seed, df[idx]? = some seed →
      ¬ seed ∈ dapatkan_rekomendasi_content_based nama_wisata df sim ∧
      (dapatkan_rekomendasi_content_based nama_wisata df sim).length =
        min 5 (df.length - 1) ∧
      (∀ w ∈ dapatkan_rekomendasi_content_based nama_wisata df sim, w ∈ df) ∧
      (simSlice df sim idx).Pairwise scoreOrder ∧
      (df.length < 6 → (dapatkan_rekomendasi_content_based nama_wisata df sim).length < 5) := by
  intro seed hseed
  have hidx : idx < df.length := first_match_idx_lt hfind
  have hlen := content_based_length_found nama_wisata df sim idx hfind
  refine ⟨?_, hlen, content_based_subset nama_wisata df sim, simSlice_pairwise df sim idx, ?_⟩
  · intro hmem
    rw [dapatkan_rekomendasi_content_based, hfind] at hmem
    rcases List.mem_filterMap.mp hmem with ⟨i, hi, hget⟩
    have hilt : i < df.length := simSlice_fst_lt df sim idx i hi
    rw [List.getElem?_eq_getElem hilt] at hget
    rw [List.getElem?_eq_getElem hidx] at hseed
    -- the selected positions omit the seed's position: the sorted row starts
    -- with the seed's entry, which the `[1:6]` slice drops
    obtain ⟨t, ht⟩ := sorted_simRow_head df.length idx (sim idx) hidx hmax hstrict
    have hfstnd : (((simRow df.length (sim idx)).insertionSort simGE).map
        (fun q => q.1)).Nodup := by
      have hperm : (((simRow df.length (sim idx)).insertionSort simGE).map
          (fun q => q.1)).Perm (List.range df.length) := by
        rw [← simRow_fst df.length (sim idx)]
        exact (List.perm_insertionSort simGE _).map _
      exact (List.Perm.nodup_iff hperm).mpr (List.nodup_range df.length)
    have hidx_not : ¬ idx ∈ t.map (fun q : Nat × ℚ => q.1) := by
      rw [ht, List.map_cons] at hfstnd
      exact (List.nodup_cons.mp hfstnd).1
    have hi_t : i ∈ t.map (fun q : Nat × ℚ => q.1) := by
      have hsub : (simSlice df sim idx).Sublist t := by
        rw [simSlice_eq_slice_sorted, ht]
        simpa using List.take_sublist 5 t
      exact (hsub.map (fun q : Nat × ℚ => q.1)).subset hi
    have hine : i ≠ idx := fun h => hidx_not (h ▸ hi_t)
    -- but the selected row carries the seed's id, forcing equal positions
    have hilen : i < (df.map Wisata.no).length := by rw [List.length_map]; exact hilt
    have hidxlen : idx < (df.map Wisata.no).length := by rw [List.length_map]; exact hidx
    have hno : (df.map Wisata.no)[i] = (df.map Wisata.no)[idx] := by
      rw [List.getElem_map, List.getElem_map]
      rw [Option.some_inj.mp hget, Option.some_inj.mp hseed]
    have := (List.Nodup.getElem_inj_iff hids).mp hno
    exact hine (by omega)
  · intro hsmall
    rw [hlen]
    omega

def c1w_seed : Wisata := mkW 1 "alpha" "Alam"

/-- C1, witness: the amended theorem applied to the concrete two-row catalog
with the seed in first position. -/
theorem spec_C1_witness :
    ¬ c1w_seed ∈ dapatkan_rekomendasi_content_based "alpha" c1_df c1_sim ∧
    (dapatkan_rekomendasi_content_based "alpha" c1_df c1_sim).length =
      min 5 (c1_df.length - 1) := by
  have h := spec_C1_amended "alpha" c1_df c1_sim 0 (by decide) (by decide)
    (fun j _ => le_refl (1 : ℚ)) (fun j hj => absurd hj (Nat.not_lt_zero j))
    c1w_seed (by decide)
  exact ⟨h.1, h.2.1⟩

/-! ### Claim C3: properties of the collaborative top-n -/

lemma mem_predictions {user_id : Nat} {df : List Wisata} {ratings : List Rating}
    {p : Nat → Nat → ℚ} {q : Nat × ℚ}
    (h : q ∈ (unrated_ids user_id df ratings).map (fun i => (i, p user_id i))) :
    q.1 ∈ unrated_ids user_id df ratings ∧ q = (q.1, p user_id q.1) := by
  rcases List.mem_map.mp h with ⟨i, hi, rfl⟩
  exact ⟨hi, rfl⟩

lemma top_n_ids_subset_unrated (user_id : Nat) (df : List Wisata)
    (ratings : List Rating) (p : Nat → Nat → ℚ) :
    ∀ x ∈ top_n_ids user_id df ratings p, x ∈ unrated_ids user_id df ratings := by
  intro x hx
  rcases List.mem_map.mp hx with ⟨q, hq, rfl⟩
  have hq2 : q ∈ ((unrated_ids user_id df ratings).map
      (fun i => (i, p user_id i))).insertionSort simGE :=
    (List.take_sublist 5 _).subset hq
  have hq3 := (List.perm_insertionSort simGE _).subset hq2
  exact (mem_predictions hq3).1

lemma top_n_ids_length_le (user_id : Nat) (df : List Wisata)
    (ratings : List Rating) (p : Nat → Nat → ℚ) :
    (top_n_ids user_id df ratings p).length ≤ 5 := by
  rw [top_n_ids, List.length_map, List.length_take]
  exact min_le_left 5 _

lemma mem_unrated_not_rated {user_id : Nat} {df : List Wisata} {ratings : List Rating}
    {i : Nat} (h : i ∈ unrated_ids user_id df ratings) :
    ¬ i ∈ rated_ids user_id ratings := by
  rcases List.mem_filter.mp h with ⟨_, hb⟩
  intro hc
  rw [Bool.not_eq_true'] at hb
  exact (Bool.not_eq_true _).mpr hb (List.elem_iff.mpr hc)

def c3_df : List Wisata := [mkW 1 "satu" "Alam", mkW 2 "dua" "Alam"]

def c3_pred : Nat → Nat → ℚ := fun _ i => if i == 1 then 2 else 9

/-- C3, counterexample: the final `df_wisata[df_wisata['no'].isin(top_n_ids)]`
selection returns rows in catalog order, not in prediction order.  With
predicted scores `2` for item 1 and `9` for item 2, the returned list is
`[item 1, item 2]` — not descending by predicted score. -/
theorem spec_C3_counterexample :
    dapatkan_rekomendasi_collaborative_filtering 7 c3_df [] (some c3_pred) =
      [mkW 1 "satu" "Alam", mkW 2 "dua" "Alam"] ∧
    ¬ List.Sorted (fun a b => c3_pred 7 b.no ≤ c3_pred 7 a.no)
      (dapatkan_rekomendasi_collaborative_filtering 7 c3_df [] (some c3_pred)) := by
  constructor
  · decide
  · decide

/-- C3, amended: the collaborative result is empty without a trained model,
excludes every item already rated by the user, has at most five rows, and its
rows carry the ids with the highest predicted scores — but the rows are
returned in catalog order (a sublist of the catalog), not descending by
predicted score. -/
theorem spec_C3_amended (user_id : Nat) (df : List Wisata) (ratings : List Rating)
    (model_cf : Option (Nat → Nat → ℚ)) (hids : (df.map Wisata.no).Nodup) :
    (model_cf = none →
      dapatkan_rekomendasi_collaborative_filtering user_id df ratings model_cf = []) ∧
    (dapatkan_rekomendasi_collaborative_filtering user_id df ratings model_cf).Sublist df ∧
    (dapatkan_rekomendasi_collaborative_filtering user_id df ratings model_cf).length ≤ 5 ∧
    (∀ w ∈ dapatkan_rekomendasi_collaborative_filtering user_id df ratings model_cf,
      ¬ w.no ∈ rated_ids user_id ratings) ∧
    (∀ p, model_cf = some p →
      ∀ w ∈ dapatkan_rekomendasi_collaborative_filtering user_id df ratings model_cf,
        ∀ j ∈ unrated_ids user_id df ratings, ¬ j ∈ top_n_ids user_id df ratings p →
          p user_id j ≤ p user_id w.no) := by
  refine ⟨?_, ?_, ?_, ?_, ?_⟩
  · intro h
    rw [h, dapatkan_rekomendasi_collaborative_filtering]
  · cases model_cf with
    | none => exact List.nil_sublist df
    | some p => exact List.filter_sublist df
  · cases model_cf with
    | none => simp [dapatkan_rekomendasi_collaborative_filtering]
    | some p =>
      have hsub : (dapatkan_rekomendasi_collaborative_filtering user_id df ratings
          (some p)).Sublist df := List.filter_sublist df
      have hnd : ((dapatkan_rekomendasi_collaborative_filtering user_id df ratings
          (some p)).map Wisata.no).Nodup :=
        List.Nodup.sublist (hsub.map Wisata.no) hids
      have hss : ∀ x ∈ (dapatkan_rekomendasi_collaborative_filtering user_id df ratings
          (some p)).map Wisata.no, x ∈ top_n_ids user_id df ratings p := by
        intro x hx
        rcases List.mem_map.mp hx with ⟨w, hw, rfl⟩
        rcases List.mem_filter.mp hw with ⟨_, hb⟩
        exact List.elem_iff.mp hb
      have := (List.subperm_of_subset hnd hss).length_le
      rw [List.length_map] at this
      exact le_trans this (top_n_ids_length_le user_id df ratings p)
  · intro w hw
    cases model_cf with
    | none => cases hw
    | some p =>
      rcases List.mem_filter.mp hw with ⟨_, hb⟩
      exact mem_unrated_not_rated
        (top_n_ids_subset_unrated user_id df ratings p w.no (List.elem_iff.mp hb))
  · intro p hp w hw j hj hjtop
    rw [hp] at hw
    rcases List.mem_filter.mp hw with ⟨_, hb⟩
    have hwtop : w.no ∈ top_n_ids user_id df ratings p := List.elem_iff.mp hb
    rcases List.mem_map.mp hwtop with ⟨q, hq, hqw⟩
    have hsorted : List.Sorted simGE (((unrated_ids user_id df ratings).map
        (fun i => (i, p user_id i))).insertionSort simGE) :=
      List.sorted_insertionSort simGE _
    have hqshape : q = (q.1, p user_id q.1) :=
      (mem_predictions ((List.perm_insertionSort simGE _).subset
        ((List.take_sublist 5 _).subset hq))).2
    have hjmem : (j, p user_id j) ∈ ((unrated_ids user_id df ratings).map
        (fun i => (i, p user_id i))).insertionSort simGE :=
      (List.perm_insertionSort simGE _).mem_iff.mpr
        (List.mem_map.mpr ⟨j, hj, rfl⟩)
    have hjdrop : (j, p user_id j) ∈ (((unrated_ids user_id df ratings).map
        (fun i => (i, p user_id i))).insertionSort simGE).drop 5 := by
      have hsplit : ((unrated_ids user_id df ratings).map
          (fun i => (i, p user_id i))).insertionSort simGE =
          (((unrated_ids user_id df ratings).map
          (fun i => (i, p user_id i))).insertionSort simGE).take 5 ++
          (((unrated_ids user_id df ratings).map
          (fun i => (i, p user_id i))).insertionSort simGE).drop 5 :=
        (List.take_append_drop 5 _).symm
      rw [hsplit] at hjmem
      rcases List.mem_append.mp hjmem with hin | hout
      · exfalso
        exact hjtop (List.mem_map.mpr ⟨(j, p user_id j), hin, rfl⟩)
      · exact hout
    have hpair : List.Pairwise simGE ((((unrated_ids user_id df ratings).map
        (fun i => (i, p user_id i))).insertionSort simGE).take 5 ++
        (((unrated_ids user_id df ratings).map
        (fun i => (i, p user_id i))).insertionSort simGE).drop 5) := by
      rw [List.take_append_drop]
      exact hsorted
    have hrel : simGE q (j, p user_id j) :=
      (List.pairwise_append.mp hpair).2.2 q hq (j, p user_id j) hjdrop
    have : p user_id j ≤ q.2 := hrel
    rw [hqshape] at this
    simp only at this
    rw [← hqw]
    rw [hqshape]
    exact this

/-- C3, witness: the amended theorem applied to the concrete catalog of the
counterexample. -/
theorem spec_C3_witness :
    (dapatkan_rekomendasi_collaborative_filtering 7 c3_df [] (some c3_pred)).Sublist c3_df ∧
    (dapatkan_rekomendasi_collaborative_filtering 7 c3_df [] (some c3_pred)).length ≤ 5 := by
  have h := spec_C3_amended 7 c3_df [] (some c3_pred) (by decide)
  exact ⟨h.2.1, h.2.2.1⟩

/-! ### Claim C5: the hybrid blend -/

lemma hybrid_length_le (nama_wisata : String) (user_id : Nat) (df : List Wisata)
    (sim : Nat → Nat → ℚ) (ratings : List Rating)
    (model_cf : Option (Nat → Nat → ℚ)) :
    (dapatkan_rekomendasi_hybrid nama_wisata user_id df sim ratings model_cf).length ≤ 5 := by
  rw [dapatkan_rekomendasi_hybrid, List.length_take]
  exact min_le_left 5 _

/-- C5: the hybrid blend is literally "collaborative first, then content-based,
deduplicate by id keeping the first occurrence, truncate to five"; hence its
ids are pairwise distinct, its length is at most five, every row comes from one
of the two sources, and a row whose id also occurs among the collaborative
results is itself a collaborative row (collaborative wins on a shared id). -/
theorem spec_C5 (nama_wisata : String) (user_id : Nat) (df : List Wisata)
    (sim : Nat → Nat → ℚ) (ratings : List Rating)
    (model_cf : Option (Nat → Nat → ℚ)) :
    dapatkan_rekomendasi_hybrid nama_wisata user_id df sim ratings model_cf =
      (drop_duplicates_no
        (dapatkan_rekomendasi_collaborative_filtering user_id df ratings model_cf ++
          dapatkan_rekomendasi_content_based nama_wisata df sim)).take 5 ∧
    ((dapatkan_rekomendasi_hybrid nama_wisata user_id df sim ratings model_cf).map
      Wisata.no).Nodup ∧
    (dapatkan_rekomendasi_hybrid nama_wisata user_id df sim ratings model_cf).length ≤ 5 ∧
    (∀ x ∈ dapatkan_rekomendasi_hybrid nama_wisata user_id df sim ratings model_cf,
      x ∈ dapatkan_rekomendasi_collaborative_filtering user_id df ratings model_cf ++
        dapatkan_rekomendasi_content_based nama_wisata df sim) ∧
    (∀ x ∈ dapatkan_rekomendasi_hybrid nama_wisata user_id df sim ratings model_cf,
      x.no ∈ (dapatkan_rekomendasi_collaborative_filtering user_id df ratings
        model_cf).map Wisata.no →
      x ∈ dapatkan_rekomendasi_collaborative_filtering user_id df ratings model_cf) := by
  refine ⟨rfl, ?_, hybrid_length_le nama_wisata user_id df sim ratings model_cf, ?_, ?_⟩
  · rw [dapatkan_rekomendasi_hybrid]
    refine List.Nodup.sublist ((List.take_sublist 5 _).map Wisata.no) ?_
    rw [drop_duplicates_no]
    exact dedup_no_go_ids_nodup [] _
  · intro x hx
    rw [dapatkan_rekomendasi_hybrid] at hx
    exact dedup_no_go_subset [] _ x ((List.take_sublist 5 _).subset hx)
  · intro x hx hno
    rw [dapatkan_rekomendasi_hybrid] at hx
    exact dedup_no_go_left_priority [] _ _ x ((List.take_sublist 5 _).subset hx) hno

/-- C5, witness: the hybrid properties evaluated on the concrete two-row
catalog. -/
theorem spec_C5_witness :
    ((dapatkan_rekomendasi_hybrid "satu" 7 c3_df c1_sim [] (some c3_pred)).map
      Wisata.no).Nodup ∧
    (dapatkan_rekomendasi_hybrid "satu" 7 c3_df c1_sim [] (some c3_pred)).length ≤ 5 := by
  have h := spec_C5 "satu" 7 c3_df c1_sim [] (some c3_pred)
  exact ⟨h.2.1, h.2.2.1⟩

/-! ### Claim C8: empty rating log -/

/-- C8: with an empty rating log (and a nonempty catalog of distinct ids) the
build succeeds with no collaborative model and raises nothing, the
collaborative top-n is empty, and for every seed the hybrid blend equals the
content-based-only result. -/
theorem spec_C8 (tfidf_sim : List Wisata → Nat → Nat → ℚ)
    (svd_train : List Rating → Nat → Nat → ℚ) (db : Db) (user_id : Nat)
    (hrat : db.ratings = []) (hne : db.wisata ≠ [])
    (hids : (db.wisata.map Wisata.no).Nodup) :
    ∃ m, load_and_train_models tfidf_sim svd_train db = some m ∧
      m.model_cf = none ∧
      (∀ ratings_now,
        dapatkan_rekomendasi_collaborative_filtering user_id m.df_wisata ratings_now
          m.model_cf = []) ∧
      (∀ nama_wisata,
        dapatkan_rekomendasi_hybrid nama_wisata user_id m.df_wisata m.sim db.ratings
          m.model_cf =
        dapatkan_rekomendasi_content_based nama_wisata m.df_wisata m.sim) := by
  have hempty : db.wisata.isEmpty = false := by
    rw [List.isEmpty_eq_false]
    exact hne
  refine ⟨⟨db.wisata, tfidf_sim db.wisata, none⟩, ?_, rfl, ?_, ?_⟩
  · rw [load_and_train_models, hempty]
    simp only [Bool.false_eq_true, if_false]
    rw [hrat]
    rfl
  · intro ratings_now
    rfl
  · intro nama_wisata
    rw [dapatkan_rekomendasi_hybrid]
    simp only
    rw [dapatkan_rekomendasi_collaborative_filtering, List.nil_append, drop_duplicates_no]
    rw [dedup_no_go_eq_self [] _ (content_based_ids_nodup nama_wisata db.wisata _ hids)
      (fun w _ h => List.not_mem_nil w.no h)]
    exact List.take_of_length_le (content_based_length_le nama_wisata db.wisata _)

/-- C8, witness: the empty-rating-log behavior on the concrete two-row
catalog. -/
theorem spec_C8_witness :
    ∃ m, load_and_train_models (fun _ _ _ => 1) (fun _ _ _ => 0) ⟨c3_df, []⟩ = some m ∧
      m.model_cf = none ∧
      (∀ ratings_now,
        dapatkan_rekomendasi_collaborative_filtering 7 m.df_wisata ratings_now
          m.model_cf = []) ∧
      (∀ nama_wisata,
        dapatkan_rekomendasi_hybrid nama_wisata 7 m.df_wisata m.sim
          (Db.ratings ⟨c3_df, []⟩) m.model_cf =
        dapatkan_rekomendasi_content_based nama_wisata m.df_wisata m.sim) :=
  spec_C8 (fun _ _ _ => 1) (fun _ _ _ => 0) ⟨c3_df, []⟩ 7 rfl (by decide) (by decide)

/-! ### Claim C9: category filter applied after the cap -/

def c9_df : List Wisata :=
  [mkW 1 "seed" "Alam", mkW 2 "a" "Alam", mkW 3 "b" "Alam", mkW 4 "c" "Alam",
   mkW 5 "d" "Alam", mkW 6 "e" "Alam", mkW 7 "f" "Budaya"]

def c9_sim : Nat → Nat → ℚ := fun _ j => if j == 0 then 2 else if j ≤ 5 then 1 else 0

/-- C9: the category filter is applied to the already-capped hybrid list — the
handler's result is a sublist of the capped hybrid list (hence of length at
most five), every surviving row matches the filter, and on a concrete catalog
the filtered result is empty even though a matching item exists in the catalog
beyond the cap. -/
theorem spec_C9 :
    (∀ nama_wisata user_id selected_types df sim ratings model_cf,
      (cari_rekomendasi_handler nama_wisata user_id selected_types df sim ratings
        model_cf).Sublist
        (dapatkan_rekomendasi_hybrid nama_wisata user_id df sim ratings model_cf) ∧
      (cari_rekomendasi_handler nama_wisata user_id selected_types df sim ratings
        model_cf).length ≤ 5 ∧
      (selected_types ≠ [] →
        ∀ w ∈ cari_rekomendasi_handler nama_wisata user_id selected_types df sim ratings
          model_cf, w.type_ ∈ selected_types)) ∧
    (cari_rekomendasi_handler "seed" 1 ["Budaya"] c9_df c9_sim [] none = [] ∧
      ∃ w ∈ c9_df, w.type_ ∈ ["Budaya"] ∧
        ¬ w ∈ dapatkan_rekomendasi_hybrid "seed" 1 c9_df c9_sim [] none) := by
  constructor
  · intro nama_wisata user_id selected_types df sim ratings model_cf
    have hsub : (cari_rekomendasi_handler nama_wisata user_id selected_types df sim
        ratings model_cf).Sublist
        (dapatkan_rekomendasi_hybrid nama_wisata user_id df sim ratings model_cf) := by
      rw [cari_rekomendasi_handler]
      by_cases h : selected_types.isEmpty
      · rw [if_pos h]
      · rw [if_neg h]
        exact List.filter_sublist _
    refine ⟨hsub, ?_, ?_⟩
    · exact le_trans hsub.length_le
        (hybrid_length_le nama_wisata user_id df sim ratings model_cf)
    · intro hne w hw
      rw [cari_rekomendasi_handler] at hw
      have h : selected_types.isEmpty = false := by
        rw [List.isEmpty_eq_false]
        exact hne
      rw [h] at hw
      simp only [Bool.false_eq_true, if_false] at hw
      rcases List.mem_filter.mp hw with ⟨_, hb⟩
      exact List.elem_iff.mp hb
  · constructor
    · decide
    · decide

/-- C9, witness: the concrete zero-result instance extracted through the
theorem. -/
theorem spec_C9_witness :
    cari_rekomendasi_handler "seed" 1 ["Budaya"] c9_df c9_sim [] none = [] :=
  spec_C9.2.1

/-! ### Claims C2 and C4: cache invalidation and the empty-catalog failure -/

def c2_db0 : Db := ⟨[mkW 1 "a" "Alam"], []⟩

/-- C2, counterexample: build a snapshot from a nonempty catalog, invalidate
(`st.cache_resource.clear()`), then rebuild after the catalog has been emptied.
The old snapshot is gone: the read after the failed rebuild observes an absent
snapshot (`None` models) — not the previous one — and serving shows the
unavailability state.  So "the previous snapshot remains servable" is false as
stated. -/
theorem spec_C2_counterexample :
    (cached_load (fun _ _ _ => 1) (fun _ _ _ => 0) none c2_db0).1.isSome = true ∧
    (cached_load (fun _ _ _ => 1) (fun _ _ _ => 0)
      (cache_clear (cached_load (fun _ _ _ => 1) (fun _ _ _ => 0) none c2_db0).2)
      ⟨[], []⟩).1 = none ∧
    serve_recommendations
      (cached_load (fun _ _ _ => 1) (fun _ _ _ => 0)
        (cache_clear (cached_load (fun _ _ _ => 1) (fun _ _ _ => 0) none c2_db0).2)
        ⟨[], []⟩).1 "a" 1 [] = none :=
  ⟨rfl, rfl, rfl⟩

/-- C2, amended: `clear()` drops the cached snapshot immediately, and a rebuild
against an empty catalog stores and returns the failure triple; every
recommendation request after an invalidation followed by a failed rebuild
observes the absent snapshot (unavailability), never the old one. -/
theorem spec_C2_amended (tfidf_sim : List Wisata → Nat → Nat → ℚ)
    (svd_train : List Rating → Nat → Nat → ℚ) (c : Option (Option Models)) (db : Db)
    (hempty : db.wisata = []) :
    (cached_load tfidf_sim svd_train (cache_clear c) db).1 = none ∧
    (cached_load tfidf_sim svd_train (cache_clear c) db).2 = some none ∧
    ∀ nama_wisata user_id rs,
      serve_recommendations (cached_load tfidf_sim svd_train (cache_clear c) db).1
        nama_wisata user_id rs = none := by
  have hload : load_and_train_models tfidf_sim svd_train db = none := by
    rw [load_and_train_models, hempty]
    rfl
  have h : cached_load tfidf_sim svd_train (cache_clear c) db = (none, some none) := by
    rw [cache_clear, cached_load, hload]
  rw [h]
  exact ⟨rfl, rfl, fun _ _ _ => rfl⟩

/-- C2, witness: the amended behavior at a concrete cleared cache and empty
catalog. -/
theorem spec_C2_witness :
    (cached_load (fun _ _ _ => 1) (fun _ _ _ => 0) (cache_clear (some (some
      ⟨c2_db0.wisata, fun _ _ => 1, none⟩))) ⟨[], []⟩).1 = none ∧
    (cached_load (fun _ _ _ => 1) (fun _ _ _ => 0) (cache_clear (some (some
      ⟨c2_db0.wisata, fun _ _ => 1, none⟩))) ⟨[], []⟩).2 = some none := by
  have h := spec_C2_amended (fun _ _ _ => 1) (fun _ _ _ => 0)
    (some (some ⟨c2_db0.wisata, fun _ _ => 1, none⟩)) ⟨[], []⟩ rfl
  exact ⟨h.1, h.2.1⟩

/-- C4: with an empty item set the model build fails (the `(None, None, None)`
return, the empty-catalog failure), and no recommendation is served from that
build: the serving layer observes the absent models and shows the
unavailability state. -/
theorem spec_C4 (tfidf_sim : List Wisata → Nat → Nat → ℚ)
    (svd_train : List Rating → Nat → Nat → ℚ) (db : Db) (hempty : db.wisata = []) :
    load_and_train_models tfidf_sim svd_train db = none ∧
    ∀ nama_wisata user_id rs,
      serve_recommendations (load_and_train_models tfidf_sim svd_train db)
        nama_wisata user_id rs = none := by
  have hload : load_and_train_models tfidf_sim svd_train db = none := by
    rw [load_and_train_models, hempty]
    rfl
  refine ⟨hload, fun nama_wisata user_id rs => ?_⟩
  rw [hload]
  rfl

/-- C4, witness: the empty-catalog failure at the concrete empty store. -/
theorem spec_C4_witness :
    load_and_train_models (fun _ _ _ => 1) (fun _ _ _ => 0) ⟨[], []⟩ = none ∧
    ∀ nama_wisata user_id rs,
      serve_recommendations (load_and_train_models (fun _ _ _ => 1) (fun _ _ _ => 0)
        ⟨[], []⟩) nama_wisata user_id rs = none :=
  spec_C4 (fun _ _ _ => 1) (fun _ _ _ => 0) ⟨[], []⟩ rfl

/-! ### Claim C6: the SVD prediction is clamped and total -/

lemma clamp_rating_bounds (x : ℚ) : 1 ≤ clamp_rating x ∧ clamp_rating x ≤ 10 := by
  constructor
  · exact le_max_left 1 _
  · rw [clamp_rating]
    exact max_le (by norm_num) (min_le_left 10 _)

/-- C6: for every trained model and every user/item pair — known or not —
`predict` yields a value in `[1, 10]` (and, being a total function, never
raises); with both the user and the item unknown, zero biases and zero factors
leave exactly the clamped global mean. -/
theorem spec_C6 (m : LatentModel) (u i : Nat) :
    1 ≤ svd_predict m u i ∧ svd_predict m u i ≤ 10 ∧
    (¬ u ∈ m.known_users → ¬ i ∈ m.known_items →
      svd_predict m u i = clamp_rating m.global_mean) := by
  refine ⟨(clamp_rating_bounds _).1, (clamp_rating_bounds _).2, ?_⟩
  intro hu hi
  have hub : ¬ m.known_users.contains u = true := fun hc => hu (List.elem_iff.mp hc)
  have hib : ¬ m.known_items.contains i = true := fun hc => hi (List.elem_iff.mp hc)
  rw [svd_predict]
  simp only [if_neg hub, if_neg hib]
  rw [dotQ]
  norm_num

def c6_model : LatentModel :=
  ⟨55/10, [1], [2], fun _ => 1, fun _ => -2, fun _ => [1, 0], fun _ => [3, 4]⟩

/-- C6, witness: the clamping facts at a concrete model and a user/item pair
unknown to it. -/
theorem spec_C6_witness :
    1 ≤ svd_predict c6_model 9 9 ∧ svd_predict c6_model 9 9 ≤ 10 ∧
    svd_predict c6_model 9 9 = clamp_rating c6_model.global_mean := by
  have h := spec_C6 c6_model 9 9
  exact ⟨h.1, h.2.1, h.2.2 (by decide) (by decide)⟩

/-! ### Claim C7: rating upsert keeps one row per key -/

lemma submit_keys_nodup (rs : List Rating) (h : (rs.map ratingKey).Nodup)
    (u i : Nat) (x : ℚ) (c : Option String) :
    ((submit_rating u i x c rs).map ratingKey).Nodup := by
  rw [submit_rating, List.map_append]
  rw [List.nodup_append]
  refine ⟨List.Nodup.sublist ((List.filter_sublist rs).map ratingKey) h,
    List.nodup_singleton _, ?_⟩
  intro k hk hk2
  rcases List.mem_map.mp hk with ⟨r, hr, rfl⟩
  rcases List.mem_filter.mp hr with ⟨_, hb⟩
  have hkey : ratingKey r = (u, i) := by
    rcases List.mem_singleton.mp hk2 with h2
    rw [h2]
    rfl
  rw [ratingKey] at hkey
  have h1 : r.user_id = u := congrArg Prod.fst hkey
  have h2 : r.wisata_id = i := congrArg Prod.snd hkey
  rw [h1, h2] at hb
  simp at hb

lemma reachable_keys_nodup : ∀ rs, ReachableRatings rs → (rs.map ratingKey).Nodup := by
  intro rs h
  induction h with
  | init => decide
  | step hprev hev ih =>
    cases hev with
    | submit u i x c rs0 => exact submit_keys_nodup _ ih u i x c
    | cascade_delete no rs0 =>
      exact List.Nodup.sublist ((List.filter_sublist _).map ratingKey) ih

lemma submit_twice_filter (u i : Nat) (x1 x2 : ℚ) (c1 c2 : Option String)
    (rs : List Rating) :
    (submit_rating u i x2 c2 (submit_rating u i x1 c1 rs)).filter
      (fun r => r.user_id == u && r.wisata_id == i) = [⟨u, i, x2, c2⟩] := by
  rw [submit_rating, submit_rating]
  rw [List.filter_append, List.filter_append, List.filter_filter]
  simp

/-- C7: in every reachable rating state the `(user, item)` keys are pairwise
distinct (at most one row per key), and submitting the same key twice leaves
exactly one row for that key, carrying the second submission's score and
comment, in a state whose keys are again pairwise distinct. -/
theorem spec_C7 (rs : List Rating) (h : ReachableRatings rs) :
    (rs.map ratingKey).Nodup ∧
    ∀ u i x1 x2 c1 c2,
      (submit_rating u i x2 c2 (submit_rating u i x1 c1 rs)).filter
        (fun r => r.user_id == u && r.wisata_id == i) = [⟨u, i, x2, c2⟩] ∧
      ((submit_rating u i x2 c2 (submit_rating u i x1 c1 rs)).map ratingKey).Nodup := by
  refine ⟨reachable_keys_nodup rs h, ?_⟩
  intro u i x1 x2 c1 c2
  refine ⟨submit_twice_filter u i x1 x2 c1 c2 rs, ?_⟩
  exact submit_keys_nodup _
    (submit_keys_nodup rs (reachable_keys_nodup rs h) u i x1 c1) u i x2 c2

/-- C7, witness: the upsert facts in the initialized database, submitting a
score of `9` then `3` for the same pair as in the spec's worked example. -/
theorem spec_C7_witness :
    (initial_ratings.map ratingKey).Nodup ∧
    (submit_rating 3 4 3 none (submit_rating 3 4 9 none initial_ratings)).filter
      (fun r => r.user_id == 3 && r.wisata_id == 4) = [⟨3, 4, 3, none⟩] := by
  have h := spec_C7 initial_ratings ReachableRatings.init
  exact ⟨h.1, (h.2 3 4 9 3 none none).1⟩

/-! ### Claim C10: id assignment on catalog add and delete -/

/-- C10, counterexample: with catalog ids `{1, 3}`, deleting the item with the
largest id (`3`) and then adding an item assigns id `2` — not the deleted id
`3` — because `MAX(no) + 1` is computed over the remaining ids. -/
theorem spec_C10_counterexample :
    ((tambah_wisata ⟨"g", 0, "Alam", 0, 0, "d"⟩
      (hapus_wisata 3 ⟨[mkW 1 "a" "Alam", mkW 3 "b" "Alam"], []⟩).wisata).map
        Wisata.no) = [1, 2] ∧ (2 : Nat) ≠ 3 := by
  constructor
  · decide
  · decide

/-- C10, amended: an added item always receives id `MAX(remaining ids) + 1`
(so `1` on an empty catalog) and vote count `0`; after deleting the item with
the largest id the next added item receives one more than the remaining
maximum — which equals the deleted id exactly when that id was one above the
remaining maximum (e.g. consecutively assigned ids), so ids can repeat across
the catalog's history, as the concrete `{1, 2}` run shows. -/
theorem spec_C10_amended :
    (∀ data catalog, ∃ w, tambah_wisata data catalog = catalog ++ [w] ∧
      w.no = (catalog.map Wisata.no).foldr max 0 + 1 ∧ w.vote_count = 0) ∧
    ((hapus_wisata 2 ⟨[mkW 1 "a" "Alam", mkW 2 "b" "Alam"], []⟩).wisata.map
      Wisata.no = [1] ∧
     (tambah_wisata ⟨"g", 0, "Alam", 0, 0, "d"⟩
      (hapus_wisata 2 ⟨[mkW 1 "a" "Alam", mkW 2 "b" "Alam"], []⟩).wisata).map
        Wisata.no = [1, 2]) := by
  constructor
  · intro data catalog
    exact ⟨_, rfl, rfl, rfl⟩
  · constructor
    · decide
    · decide

end ProyekWisata
